import Mathlib

/-!
# Verification of `intersections_tool/lib.py`

A shallow embedding of the intersections tool, a Maya utility that renders a
white pfxToon intersection indicator on top of a black background, captures
the viewport to PNG frames, and measures how much of each frame is covered.

Modelling choices:
* Python floats are modelled as `ℚ`; the numeric claims here are about exact
  sums of small integers and divisions by powers-of-255-sized constants, so
  rounding is not where the claims live.
* The PNG data returned by `png.Reader(...).read()` is modelled by `PNGData`:
  `data[0]`/`data[1]` are width/height, `data[2]` is the sequence of rows,
  each row a flat sequence of channel values.
* The Maya / filesystem side effects performed by the library are modelled as
  a trace of `Action`s emitted by each function, and node-level consequences
  (deletion, tagging) by a small interpreter over the pfxToon nodes of the
  scene.
-/

set_option autoImplicit false

namespace IntersectionsTool

/-- The tuple returned by `png.Reader(filename=file_path).read()`:
width (`data[0]`), height (`data[1]`), and the decoded rows (`data[2]`),
each row a flat list of channel values (e.g. RGBA interleaved). -/
structure PNGData where
  width : Nat
  height : Nat
  rows : List (List Nat)
  deriving DecidableEq, Repr

/-- Embedding of `get_white_coverage` (lib.py lines 111-134).

```
img = png.Reader(filename=file_path)
data = img.read()
pixel_count = data[0] * data[1]
values_max = pixel_count * 4 * 255
values_count = 0.0
for row in data[2]:
    values_count += sum(row)
return values_count / values_max
```

The accumulation loop is the `foldl`; when `values_max` is zero the final
float division raises `ZeroDivisionError`, modelled as `Except.error`. -/
def get_white_coverage (img : PNGData) : Except String ℚ :=
  let pixel_count := img.width * img.height
  let values_max := pixel_count * 4 * 255
  let values_count : ℚ := img.rows.foldl (fun acc row => acc + (row.sum : ℚ)) 0
  if values_max = 0 then
    Except.error "ZeroDivisionError: float division"
  else
    Except.ok (values_count / (values_max : ℚ))

/-- Total of all channel values over every row of the decoded pixel data. -/
def totalValues (img : PNGData) : Nat :=
  (img.rows.map List.sum).sum

/-- Group a flat row of interleaved channel values into 4-channel (RGBA)
pixels.  Used only to state the claimed "fraction of non-black pixels"
semantics, for comparison against the source's computation. -/
def chunk4 : List Nat → List (List Nat)
  | a :: b :: c :: d :: rest => [a, b, c, d] :: chunk4 rest
  | [] => []
  | l => [l]

/-- The pixels of an image: every row grouped into 4-channel pixels. -/
def pixels (img : PNGData) : List (List Nat) :=
  (img.rows.map chunk4).flatten

/-- The semantics C1 claims for `get_white_coverage` (stated from the claim's
words, not the source, to be compared with the source's computation): the
number of pixels with at least one non-zero channel divided by the total
number of pixels. -/
def nonBlackPixelFraction (img : PNGData) : ℚ :=
  (((pixels img).filter (fun p => p.any (fun v => v ≠ 0))).length : ℚ) /
    ((img.width * img.height : Nat) : ℚ)

/-- The accumulation loop of `get_white_coverage` computes the plain sum of
the row sums. -/
theorem foldl_rows_eq_totalValues (rows : List (List Nat)) (init : ℚ) :
    rows.foldl (fun acc row => acc + (row.sum : ℚ)) init
      = init + ((rows.map List.sum).sum : ℚ) := by
  induction rows generalizing init with
  | nil => simp
  | cons r rest ih =>
      rw [List.foldl_cons, ih, List.map_cons, List.sum_cons]
      push_cast
      ring

/-- On any image with at least one pixel, `get_white_coverage` returns the
total of all channel values divided by `width * height * 4 * 255`. -/
theorem get_white_coverage_eq (img : PNGData)
    (h : 0 < img.width * img.height) :
    get_white_coverage img
      = Except.ok ((totalValues img : ℚ)
          / ((img.width * img.height * 4 * 255 : Nat) : ℚ)) := by
  have hmax : img.width * img.height * 4 * 255 ≠ 0 := by positivity
  simp only [get_white_coverage]
  rw [if_neg hmax, foldl_rows_eq_totalValues, zero_add]
  rfl

end IntersectionsTool

namespace IntersectionsTool

/-- The concrete 1×1 RGBA image whose single pixel is pure red
`(255, 0, 0, 255)`. -/
def redPixelImage : PNGData :=
  { width := 1, height := 1, rows := [[255, 0, 0, 255]] }

/-- **C1, counterexample.**  On the 1×1 image with the single pixel
`(255, 0, 0, 255)` the fraction of non-black pixels is `1` (its only pixel
has a non-zero channel), but `get_white_coverage` returns
`510 / 1020 = 1/2`: the code computes the normalized sum of channel values,
not the fraction of non-black pixels. -/
theorem C1_counterexample :
    get_white_coverage redPixelImage = Except.ok (1 / 2)
      ∧ nonBlackPixelFraction redPixelImage = 1
      ∧ (1 / 2 : ℚ) ≠ 1 := by
  refine ⟨?_, ?_, by norm_num⟩
  · simp [get_white_coverage, redPixelImage]
    norm_num
  · simp [nonBlackPixelFraction, pixels, redPixelImage, chunk4]

/-- **C1, amended.**  For every PNG image with at least one pixel,
`get_white_coverage` returns the sum of all channel values divided by
`width * height * 4 * 255` — the mean channel value as a fraction of 255 —
rather than the fraction of non-black pixels. -/
theorem C1_amended_white_coverage (img : PNGData)
    (h : 0 < img.width * img.height) :
    get_white_coverage img
      = Except.ok ((totalValues img : ℚ)
          / ((img.width * img.height * 4 * 255 : Nat) : ℚ)) :=
  get_white_coverage_eq img h

/-- Witness for `C1_amended_white_coverage` at the concrete red-pixel image. -/
theorem C1_amended_white_coverage_witness :
    get_white_coverage redPixelImage
      = Except.ok ((totalValues redPixelImage : ℚ)
          / ((redPixelImage.width * redPixelImage.height * 4 * 255 : Nat) : ℚ)) :=
  C1_amended_white_coverage redPixelImage (by decide)

/-- **C2.**  For every PNG image (every valid PNG has at least one pixel),
the value `get_white_coverage` returns, multiplied by
`width * height * 4 * 255`, equals the sum of all channel values over every
row of the decoded pixel data: it reads the PNG's pixel sums. -/
theorem C2_reads_pixel_sums (img : PNGData)
    (h : 0 < img.width * img.height) :
    ∃ q : ℚ, get_white_coverage img = Except.ok q
      ∧ q * ((img.width * img.height * 4 * 255 : Nat) : ℚ)
          = ((img.rows.map List.sum).sum : ℚ) := by
  refine ⟨(totalValues img : ℚ)
      / ((img.width * img.height * 4 * 255 : Nat) : ℚ),
    get_white_coverage_eq img h, ?_⟩
  have hmax : ((img.width * img.height * 4 * 255 : Nat) : ℚ) ≠ 0 := by
    have : img.width * img.height * 4 * 255 ≠ 0 := by positivity
    exact_mod_cast this
  rw [div_mul_cancel₀ _ hmax]
  rfl

/-- Witness for `C2_reads_pixel_sums` at the concrete red-pixel image. -/
theorem C2_reads_pixel_sums_witness :
    ∃ q : ℚ, get_white_coverage redPixelImage = Except.ok q
      ∧ q * ((redPixelImage.width * redPixelImage.height * 4 * 255 : Nat) : ℚ)
          = ((redPixelImage.rows.map List.sum).sum : ℚ) :=
  C2_reads_pixel_sums redPixelImage (by decide)

/-- 8-bit RGBA pixel data: one decoded row per image row, each a flat list of
`width * 4` channel values, every channel value at most 255. -/
def ValidRGBA (img : PNGData) : Prop :=
  img.rows.length = img.height ∧
    ∀ row ∈ img.rows, row.length = img.width * 4 ∧ ∀ v ∈ row, v ≤ 255

/-- On valid 8-bit RGBA data the total of all channel values is at most
`width * height * 4 * 255`. -/
theorem totalValues_le (img : PNGData) (hv : ValidRGBA img) :
    totalValues img ≤ img.width * img.height * 4 * 255 := by
  obtain ⟨hlen, hrow⟩ := hv
  have hbound : ∀ s ∈ img.rows.map List.sum, s ≤ img.width * 4 * 255 := by
    intro s hs
    obtain ⟨row, hrowmem, rfl⟩ := List.mem_map.mp hs
    obtain ⟨hrl, hrv⟩ := hrow row hrowmem
    calc row.sum ≤ row.length • 255 := List.sum_le_card_nsmul row 255 hrv
    _ = img.width * 4 * 255 := by rw [hrl, smul_eq_mul]
  calc totalValues img
      ≤ (img.rows.map List.sum).length • (img.width * 4 * 255) :=
        List.sum_le_card_nsmul _ _ hbound
    _ = img.width * img.height * 4 * 255 := by
        rw [List.length_map, hlen, smul_eq_mul]; ring

/-- **C8.**  For every 8-bit RGBA image with at least one pixel,
`get_white_coverage` returns a value in `[0, 1]`, and that value is `0` if
and only if every channel value of every pixel is `0`; for an image with
zero pixels the division by `width * height * 4 * 255` raises
`ZeroDivisionError`. -/
theorem C8_range_and_zero (img : PNGData) (hv : ValidRGBA img) :
    (0 < img.width * img.height →
      ∃ q : ℚ, get_white_coverage img = Except.ok q
        ∧ 0 ≤ q ∧ q ≤ 1
        ∧ (q = 0 ↔ ∀ row ∈ img.rows, ∀ v ∈ row, v = 0))
    ∧ (img.width * img.height = 0 →
        get_white_coverage img = Except.error "ZeroDivisionError: float division") := by
  constructor
  · intro hpos
    have hmaxq : (0 : ℚ) < ((img.width * img.height * 4 * 255 : Nat) : ℚ) := by
      have : 0 < img.width * img.height * 4 * 255 := by positivity
      exact_mod_cast this
    refine ⟨(totalValues img : ℚ)
        / ((img.width * img.height * 4 * 255 : Nat) : ℚ),
      get_white_coverage_eq img hpos, ?_, ?_, ?_⟩
    · exact div_nonneg (Nat.cast_nonneg _) (le_of_lt hmaxq)
    · rw [div_le_one hmaxq]
      exact_mod_cast totalValues_le img hv
    · rw [div_eq_zero_iff]
      constructor
      · rintro (hnum | hden)
        · have h0 : totalValues img = 0 := by exact_mod_cast hnum
          intro row hrowmem v hvmem
          have hsum : (img.rows.map List.sum).sum = 0 := h0
          have hrowsum : row.sum = 0 :=
            (List.sum_eq_zero_iff).mp hsum _ (List.mem_map_of_mem List.sum hrowmem)
          exact (List.sum_eq_zero_iff).mp hrowsum v hvmem
        · exact absurd hden (ne_of_gt hmaxq)
      · intro hall
        left
        have h0 : totalValues img = 0 := by
          apply (List.sum_eq_zero_iff).mpr
          intro s hs
          obtain ⟨row, hrowmem, rfl⟩ := List.mem_map.mp hs
          exact (List.sum_eq_zero_iff).mpr (hall row hrowmem)
        exact_mod_cast h0
  · intro hzero
    have hmax : img.width * img.height * 4 * 255 = 0 := by
      simp [hzero]
    simp [get_white_coverage, hmax]

/-- Witness for `C8_range_and_zero` at the concrete red-pixel image. -/
theorem C8_range_and_zero_witness :
    (0 < redPixelImage.width * redPixelImage.height →
      ∃ q : ℚ, get_white_coverage redPixelImage = Except.ok q
        ∧ 0 ≤ q ∧ q ≤ 1
        ∧ (q = 0 ↔ ∀ row ∈ redPixelImage.rows, ∀ v ∈ row, v = 0))
    ∧ (redPixelImage.width * redPixelImage.height = 0 →
        get_white_coverage redPixelImage
          = Except.error "ZeroDivisionError: float division") :=
  C8_range_and_zero redPixelImage (by unfold ValidRGBA; decide)

/-! ## The Maya side: API calls as a trace of actions

Each library function is embedded as a pure function that, besides its return
value, emits the list of Maya / filesystem API calls it performs, in order.
Nondeterministic host-generated data (node names Maya picks, the hash-named
temp directory, the directory listing) enter as parameters or environment
fields. -/

/-- A value passed to `pymel` attribute `set`. -/
inductive AttrValue where
  | num (n : Nat)
  | triple (a b c : Nat)
  deriving DecidableEq, Repr

/-- One Maya / filesystem API call performed by the library. -/
inductive Action where
  | pymelDelete (node : String)
  | createNode (typ name parentName : String)
  | setAttr (node attr : String) (value : AttrValue)
  | addAttr (longName : String)
  | connectAttr (src dst : String)
  | shadingNode (typ name : String) (asShader : Bool)
  | setsCmd (name : String) (renderable noSurfaceShader empty : Bool)
  | createRenderLayer (name : String)
  | createCollection (parentColl name : String)
  | setFilterType (coll : String) (filterType : Nat)
  | setPattern (coll patt : String)
  | createOverride (coll name typeId : String)
  | switchToLayer (layerName : String)
  | renderLayerDelete (name : String)
  | makedirs (dir : String)
  | selectClear
  | captureCall (camera fmt compression : String) (width : Nat)
      (startFrame endFrame : Option ℚ) (filename : String)
  | rmtreeCall (dir : String) (ignoreErrors : Bool)
  deriving DecidableEq, Repr

/-- A pfxToon shape node in the scene: its name, the name of its parent
transform, and whether it carries the `intersections_tool` attribute
(`hasattr(node, "intersections_tool")`). -/
structure PfxNode where
  name : String
  parent : String
  tagged : Bool
  deriving DecidableEq, Repr

/-- The part of the scene the library inspects: `pymel.core.ls(type="mesh")`
and `pymel.core.ls(type="pfxToon")`. -/
structure Scene where
  meshShapes : List String
  pfxToons : List PfxNode
  deriving DecidableEq, Repr

/-- The `preset` dict of `apply_pfxtoon` (lib.py lines 37-47), in source
order. -/
def preset : List (String × AttrValue) :=
  [("displayPercent", AttrValue.num 100),
   ("intersectionLines", AttrValue.num 1),
   ("selfIntersect", AttrValue.num 1),
   ("creaseLines", AttrValue.num 0),
   ("profileLines", AttrValue.num 0),
   ("intersectionLineWidth", AttrValue.num 10),
   ("screenspaceWidth", AttrValue.num 1),
   ("intersectionColor", AttrValue.triple 1 1 1),
   ("maxPixelWidth", AttrValue.num 10)]

/-- The connection loop of `apply_pfxtoon` (lib.py lines 55-67): each mesh's
`outMesh` and `worldMatrix[0]` are connected to the `surface` and
`inputWorldMatrix` of one `inputSurface` slot, the index starting at the
given value and incremented per mesh. -/
def connectMeshes (pfx : String) : Nat → List String → List Action
  | _, [] => []
  | i, m :: rest =>
      Action.connectAttr (m ++ ".outMesh")
        (pfx ++ ".inputSurface[" ++ toString i ++ "].surface")
      :: Action.connectAttr (m ++ ".worldMatrix[0]")
        (pfx ++ ".inputSurface[" ++ toString i ++ "].inputWorldMatrix")
      :: connectMeshes pfx (i + 1) rest

/-- The `if not meshes` fallback of `apply_pfxtoon` (lib.py lines 27-28):
`None` and the empty list are both falsy, so either falls back to
`pymel.core.ls(type="mesh")`. -/
def resolveMeshes (scene : Scene) (meshes : Option (List String)) : List String :=
  match meshes with
  | none => scene.meshShapes
  | some l => if l.isEmpty then scene.meshShapes else l

/-- Embedding of `apply_pfxtoon` (lib.py lines 13-69).  `meshes = none`
models the `None` default; a `some` list models an explicit argument, and
`if not meshes` treats the empty list like `None`.  `newShape`/`newParent`
are the names Maya assigns to the created pfxToon shape and its parent
transform; `pymel.core.addAttr` acts on the current selection, which after
`createNode` is the new shape.  Returns the emitted trace and the
`[pfx_transform, pfx_shape]` pair. -/
def apply_pfxtoon (scene : Scene) (meshes : Option (List String))
    (newShape newParent : String) : List Action × String × String :=
  let ms := resolveMeshes scene meshes
  let deletions := (scene.pfxToons.filter (fun p => p.tagged)).map
    (fun p => Action.pymelDelete p.parent)
  (deletions
      ++ Action.createNode "pfxToon" newShape newParent
      :: (preset.map (fun pv => Action.setAttr newShape pv.1 pv.2)
        ++ Action.addAttr "intersections_tool"
        :: connectMeshes newShape 0 ms),
    newParent, newShape)

/-- **C9.**  Calling `apply_pfxtoon` with an empty mesh list produces exactly
the same trace and return value as calling it with `None`: `if not meshes`
treats every falsy argument alike, falling back to all mesh shapes in the
scene. -/
theorem C9_empty_meshes_like_none (scene : Scene) (newShape newParent : String) :
    apply_pfxtoon scene (some []) newShape newParent
      = apply_pfxtoon scene none newShape newParent := by
  simp [apply_pfxtoon, resolveMeshes]

/-- The `i`-th mesh of the list is connected at slot `start + i`: both the
`outMesh → surface` and the `worldMatrix[0] → inputWorldMatrix` connections
appear in the trace of the connection loop. -/
theorem connectMeshes_spec (pfx : String) (ms : List String) :
    ∀ (start i : Nat) (h : i < ms.length),
      Action.connectAttr ((ms.get ⟨i, h⟩) ++ ".outMesh")
          (pfx ++ ".inputSurface[" ++ toString (start + i) ++ "].surface")
        ∈ connectMeshes pfx start ms
      ∧ Action.connectAttr ((ms.get ⟨i, h⟩) ++ ".worldMatrix[0]")
          (pfx ++ ".inputSurface[" ++ toString (start + i) ++ "].inputWorldMatrix")
        ∈ connectMeshes pfx start ms := by
  induction ms with
  | nil => intro start i h; simp at h
  | cons m rest ih =>
      intro start i h
      match i with
      | 0 =>
          refine ⟨?_, ?_⟩ <;> simp [connectMeshes]
      | Nat.succ j =>
          have hj : j < rest.length := Nat.lt_of_succ_lt_succ h
          have hadd : start + (j + 1) = (start + 1) + j := by omega
          have hspec := ih (start + 1) j hj
          rw [List.get_cons_succ, hadd]
          exact ⟨List.mem_cons_of_mem _ (List.mem_cons_of_mem _ hspec.1),
            List.mem_cons_of_mem _ (List.mem_cons_of_mem _ hspec.2)⟩

/-- Every preset attribute is set on the new shape in the trace of
`apply_pfxtoon`. -/
theorem setAttr_mem_apply_pfxtoon (scene : Scene) (meshes : Option (List String))
    (newShape newParent : String) (a : String) (v : AttrValue)
    (hav : (a, v) ∈ preset) :
    Action.setAttr newShape a v
      ∈ (apply_pfxtoon scene meshes newShape newParent).1 := by
  have hm : Action.setAttr newShape a v
      ∈ preset.map (fun pv => Action.setAttr newShape pv.1 pv.2) := by
    exact List.mem_map.mpr ⟨(a, v), hav, rfl⟩
  simp only [apply_pfxtoon, List.mem_append, List.mem_cons]
  tauto

/-- **C5.**  `apply_pfxtoon` on a non-empty mesh list emits: `selfIntersect`
and `intersectionLines` set to 1, `creaseLines` and `profileLines` set to 0,
`intersectionColor` set to white `(1, 1, 1)` — all on the created pfxToon
shape — and, for every position `i` of the given mesh list, connections from
that mesh's `outMesh` and `worldMatrix[0]` into the `surface` and
`inputWorldMatrix` of `inputSurface` slot `i`, the indices consecutive from
0. -/
theorem C5_pfxtoon_setup (scene : Scene) (ms : List String)
    (newShape newParent : String) (hne : ms ≠ []) :
    Action.setAttr newShape "selfIntersect" (AttrValue.num 1)
        ∈ (apply_pfxtoon scene (some ms) newShape newParent).1
    ∧ Action.setAttr newShape "intersectionLines" (AttrValue.num 1)
        ∈ (apply_pfxtoon scene (some ms) newShape newParent).1
    ∧ Action.setAttr newShape "creaseLines" (AttrValue.num 0)
        ∈ (apply_pfxtoon scene (some ms) newShape newParent).1
    ∧ Action.setAttr newShape "profileLines" (AttrValue.num 0)
        ∈ (apply_pfxtoon scene (some ms) newShape newParent).1
    ∧ Action.setAttr newShape "intersectionColor" (AttrValue.triple 1 1 1)
        ∈ (apply_pfxtoon scene (some ms) newShape newParent).1
    ∧ ∀ (i : Nat) (h : i < ms.length),
        Action.connectAttr ((ms.get ⟨i, h⟩) ++ ".outMesh")
            (newShape ++ ".inputSurface[" ++ toString i ++ "].surface")
          ∈ (apply_pfxtoon scene (some ms) newShape newParent).1
        ∧ Action.connectAttr ((ms.get ⟨i, h⟩) ++ ".worldMatrix[0]")
            (newShape ++ ".inputSurface[" ++ toString i ++ "].inputWorldMatrix")
          ∈ (apply_pfxtoon scene (some ms) newShape newParent).1 := by
  have hye : ms.isEmpty = false := by
    cases ms with
    | nil => exact absurd rfl hne
    | cons a l => rfl
  refine ⟨?_, ?_, ?_, ?_, ?_, ?_⟩
  · exact setAttr_mem_apply_pfxtoon _ _ _ _ _ _ (by simp [preset])
  · exact setAttr_mem_apply_pfxtoon _ _ _ _ _ _ (by simp [preset])
  · exact setAttr_mem_apply_pfxtoon _ _ _ _ _ _ (by simp [preset])
  · exact setAttr_mem_apply_pfxtoon _ _ _ _ _ _ (by simp [preset])
  · exact setAttr_mem_apply_pfxtoon _ _ _ _ _ _ (by simp [preset])
  · intro i h
    have hspec := connectMeshes_spec newShape ms 0 i h
    rw [Nat.zero_add] at hspec
    have hsub : ∀ x ∈ connectMeshes newShape 0 ms,
        x ∈ (apply_pfxtoon scene (some ms) newShape newParent).1 := by
      intro x hx
      simp only [apply_pfxtoon, resolveMeshes, hye, Bool.false_eq_true, if_false,
        List.mem_append, List.mem_cons]
      tauto
    exact ⟨hsub _ hspec.1, hsub _ hspec.2⟩

/-- Witness for `C5_pfxtoon_setup` on a concrete two-mesh scene. -/
theorem C5_pfxtoon_setup_witness :
    Action.setAttr "pfxToonShape1" "selfIntersect" (AttrValue.num 1)
        ∈ (apply_pfxtoon ⟨["pCubeShape1", "pSphereShape1"], []⟩
            (some ["pCubeShape1", "pSphereShape1"]) "pfxToonShape1" "pfxToon1").1
    ∧ Action.setAttr "pfxToonShape1" "intersectionLines" (AttrValue.num 1)
        ∈ (apply_pfxtoon ⟨["pCubeShape1", "pSphereShape1"], []⟩
            (some ["pCubeShape1", "pSphereShape1"]) "pfxToonShape1" "pfxToon1").1
    ∧ Action.setAttr "pfxToonShape1" "creaseLines" (AttrValue.num 0)
        ∈ (apply_pfxtoon ⟨["pCubeShape1", "pSphereShape1"], []⟩
            (some ["pCubeShape1", "pSphereShape1"]) "pfxToonShape1" "pfxToon1").1
    ∧ Action.setAttr "pfxToonShape1" "profileLines" (AttrValue.num 0)
        ∈ (apply_pfxtoon ⟨["pCubeShape1", "pSphereShape1"], []⟩
            (some ["pCubeShape1", "pSphereShape1"]) "pfxToonShape1" "pfxToon1").1
    ∧ Action.setAttr "pfxToonShape1" "intersectionColor" (AttrValue.triple 1 1 1)
        ∈ (apply_pfxtoon ⟨["pCubeShape1", "pSphereShape1"], []⟩
            (some ["pCubeShape1", "pSphereShape1"]) "pfxToonShape1" "pfxToon1").1
    ∧ ∀ (i : Nat) (h : i < (["pCubeShape1", "pSphereShape1"] : List String).length),
        Action.connectAttr (((["pCubeShape1", "pSphereShape1"] : List String).get ⟨i, h⟩)
              ++ ".outMesh")
            ("pfxToonShape1" ++ ".inputSurface[" ++ toString i ++ "].surface")
          ∈ (apply_pfxtoon ⟨["pCubeShape1", "pSphereShape1"], []⟩
              (some ["pCubeShape1", "pSphereShape1"]) "pfxToonShape1" "pfxToon1").1
        ∧ Action.connectAttr (((["pCubeShape1", "pSphereShape1"] : List String).get ⟨i, h⟩)
              ++ ".worldMatrix[0]")
            ("pfxToonShape1" ++ ".inputSurface[" ++ toString i ++ "].inputWorldMatrix")
          ∈ (apply_pfxtoon ⟨["pCubeShape1", "pSphereShape1"], []⟩
              (some ["pCubeShape1", "pSphereShape1"]) "pfxToonShape1" "pfxToon1").1 :=
  C5_pfxtoon_setup ⟨["pCubeShape1", "pSphereShape1"], []⟩
    ["pCubeShape1", "pSphereShape1"] "pfxToonShape1" "pfxToon1" (by decide)

/-! ## Node-level consequences of the emitted actions

A small interpreter over the pfxToon nodes of the scene: deleting a
transform deletes the shapes under it, creating a pfxToon node adds an
untagged shape and selects it, and `addAttr(longName="intersections_tool")`
tags the selected nodes.  All other calls leave the pfxToon population
unchanged. -/

/-- The pfxToon nodes of the scene plus the current selection. -/
structure PfxState where
  nodes : List PfxNode
  selection : List String
  deriving DecidableEq, Repr

/-- `pymel.core.addAttr(longName=...)` acts on the selected nodes: a node
in the selection acquires the attribute (is tagged). -/
def tagIfSelected (sel : List String) (p : PfxNode) : PfxNode :=
  if sel.contains p.name then { p with tagged := true } else p

/-- Effect of one action on the pfxToon nodes and selection. -/
def stepAction (st : PfxState) : Action → PfxState
  | Action.pymelDelete n =>
      { st with nodes := st.nodes.filter (fun p => p.name != n && p.parent != n) }
  | Action.createNode typ name parentName =>
      if typ = "pfxToon" then
        { nodes := st.nodes ++ [⟨name, parentName, false⟩], selection := [name] }
      else st
  | Action.addAttr ln =>
      if ln = "intersections_tool" then
        { st with nodes := st.nodes.map (tagIfSelected st.selection) }
      else st
  | _ => st

/-- Run a trace of actions from a starting state. -/
def runActions (st : PfxState) (tr : List Action) : PfxState :=
  tr.foldl stepAction st

/-- A node survives the deletion loop when no deleted parent transform is its
own name or its parent. -/
def survives (ds : List PfxNode) (q : PfxNode) : Bool :=
  ds.all (fun p => q.name != p.parent && q.parent != p.parent)

theorem runActions_cons (st : PfxState) (a : Action) (tr : List Action) :
    runActions st (a :: tr) = runActions (stepAction st a) tr := rfl

theorem runActions_append (st : PfxState) (xs ys : List Action) :
    runActions st (xs ++ ys) = runActions (runActions st xs) ys :=
  List.foldl_append _ _ _ _

theorem stepAction_setAttr (st : PfxState) (n a : String) (v : AttrValue) :
    stepAction st (Action.setAttr n a v) = st := rfl

theorem stepAction_connectAttr (st : PfxState) (s d : String) :
    stepAction st (Action.connectAttr s d) = st := rfl

theorem runActions_deletions (ds : List PfxNode) (st : PfxState) :
    runActions st (ds.map (fun p => Action.pymelDelete p.parent))
      = { st with nodes := st.nodes.filter (survives ds) } := by
  induction ds generalizing st with
  | nil =>
      have h : st.nodes.filter (survives []) = st.nodes :=
        List.filter_eq_self.mpr (fun a _ => rfl)
      show st = { st with nodes := st.nodes.filter (survives []) }
      rw [h]
  | cons d rest ih =>
      rw [List.map_cons, runActions_cons, ih]
      simp only [stepAction]
      congr 1
      rw [List.filter_filter]
      apply List.filter_congr
      intro a _
      simp [survives, List.all_cons, Bool.and_comm]

theorem runActions_setAttrs (st : PfxState) (n : String)
    (l : List (String × AttrValue)) :
    runActions st (l.map (fun pv => Action.setAttr n pv.1 pv.2)) = st := by
  induction l generalizing st with
  | nil => rfl
  | cons p rest ih =>
      rw [List.map_cons, runActions_cons, stepAction_setAttr]
      exact ih st

theorem runActions_connectMeshes (pfx : String) (ms : List String) :
    ∀ (st : PfxState) (i : Nat), runActions st (connectMeshes pfx i ms) = st := by
  induction ms with
  | nil => intro st i; rfl
  | cons m rest ih =>
      intro st i
      rw [connectMeshes, runActions_cons, runActions_cons,
        stepAction_connectAttr, stepAction_connectAttr]
      exact ih st (i + 1)

theorem stepAction_createNode_pfxToon (st : PfxState) (name parentName : String) :
    stepAction st (Action.createNode "pfxToon" name parentName)
      = ⟨st.nodes ++ [⟨name, parentName, false⟩], [name]⟩ := by
  simp [stepAction]

theorem stepAction_addAttr_tag (st : PfxState) :
    stepAction st (Action.addAttr "intersections_tool")
      = { st with nodes := st.nodes.map (tagIfSelected st.selection) } := by
  simp [stepAction]

/-- **C10.**  In `apply_pfxtoon`, the deletion loop precedes the
`createNode`: the trace splits as deletions, then the creation, and the
parent transform of every already-tagged pfxToon is deleted in the prefix.
Running the whole trace on the scene's pfxToon population leaves exactly one
tagged pfxToon — the freshly created, freshly tagged shape — so at most one
intersections-tool pfx setup exists afterwards. -/
theorem C10_unique_tagged_pfx (scene : Scene) (meshes : Option (List String))
    (newShape newParent : String)
    (hfresh : ∀ p ∈ scene.pfxToons, p.name ≠ newShape) :
    (∃ pre post,
        (apply_pfxtoon scene meshes newShape newParent).1
          = pre ++ Action.createNode "pfxToon" newShape newParent :: post
        ∧ ∀ p ∈ scene.pfxToons, p.tagged = true →
            Action.pymelDelete p.parent ∈ pre)
    ∧ ((runActions ⟨scene.pfxToons, []⟩
          (apply_pfxtoon scene meshes newShape newParent).1).nodes.filter
            (fun p => p.tagged))
        = [⟨newShape, newParent, true⟩] := by
  have htr : (apply_pfxtoon scene meshes newShape newParent).1
      = ((scene.pfxToons.filter (fun p => p.tagged)).map
          (fun p => Action.pymelDelete p.parent))
        ++ Action.createNode "pfxToon" newShape newParent
        :: (preset.map (fun pv => Action.setAttr newShape pv.1 pv.2)
          ++ Action.addAttr "intersections_tool"
          :: connectMeshes newShape 0 (resolveMeshes scene meshes)) := rfl
  constructor
  · exact ⟨_, _, htr, fun p hp ht =>
      List.mem_map_of_mem _ (List.mem_filter.mpr ⟨hp, ht⟩)⟩
  · rw [htr, runActions_append, runActions_deletions, runActions_cons,
      stepAction_createNode_pfxToon, runActions_append, runActions_setAttrs,
      runActions_cons, stepAction_addAttr_tag, runActions_connectMeshes]
    dsimp only
    rw [List.map_append]
    have hsurv : (scene.pfxToons.filter
          (survives (scene.pfxToons.filter (fun p => p.tagged)))).map
        (tagIfSelected [newShape])
      = scene.pfxToons.filter
          (survives (scene.pfxToons.filter (fun p => p.tagged))) := by
      have h1 : (scene.pfxToons.filter
            (survives (scene.pfxToons.filter (fun p => p.tagged)))).map
          (tagIfSelected [newShape])
        = (scene.pfxToons.filter
            (survives (scene.pfxToons.filter (fun p => p.tagged)))).map id := by
        apply List.map_congr_left
        intro q hq
        have hqmem : q ∈ scene.pfxToons := (List.mem_filter.mp hq).1
        have hne : (q.name == newShape) = false :=
          beq_eq_false_iff_ne.mpr (hfresh q hqmem)
        simp [tagIfSelected, List.contains, hne]
        intro h
        exact absurd h (beq_eq_false_iff_ne.mp hne)
      rw [h1, List.map_id]
    rw [hsurv, List.filter_append]
    have hnone : (scene.pfxToons.filter
          (survives (scene.pfxToons.filter (fun p => p.tagged)))).filter
        (fun p => p.tagged) = [] := by
      apply List.filter_eq_nil_iff.mpr
      intro q hq hqt
      have hmem := List.mem_filter.mp hq
      have hqds : q ∈ scene.pfxToons.filter (fun p => p.tagged) :=
        List.mem_filter.mpr ⟨hmem.1, hqt⟩
      have hall := List.all_eq_true.mp hmem.2 q hqds
      rw [bne_self_eq_false, Bool.and_false] at hall
      exact Bool.false_ne_true hall
    rw [hnone]
    simp [tagIfSelected, List.contains]

/-- Witness for `C10_unique_tagged_pfx` on a scene holding one tagged and one
untagged pfxToon. -/
theorem C10_unique_tagged_pfx_witness :
    (∃ pre post,
        (apply_pfxtoon ⟨["meshA"], [⟨"oldShape", "oldXform", true⟩,
            ⟨"plainShape", "plainXform", false⟩]⟩ none "pfxToonShape1" "pfxToon1").1
          = pre ++ Action.createNode "pfxToon" "pfxToonShape1" "pfxToon1" :: post
        ∧ ∀ p ∈ ([⟨"oldShape", "oldXform", true⟩,
            ⟨"plainShape", "plainXform", false⟩] : List PfxNode), p.tagged = true →
            Action.pymelDelete p.parent ∈ pre)
    ∧ ((runActions ⟨[⟨"oldShape", "oldXform", true⟩,
          ⟨"plainShape", "plainXform", false⟩], []⟩
          (apply_pfxtoon ⟨["meshA"], [⟨"oldShape", "oldXform", true⟩,
            ⟨"plainShape", "plainXform", false⟩]⟩ none "pfxToonShape1" "pfxToon1").1).nodes.filter
            (fun p => p.tagged))
        = [⟨"pfxToonShape1", "pfxToon1", true⟩] :=
  C10_unique_tagged_pfx ⟨["meshA"], [⟨"oldShape", "oldXform", true⟩,
    ⟨"plainShape", "plainXform", false⟩]⟩ none "pfxToonShape1" "pfxToon1" (by decide)

/-! ## Render-layer override, node deletion, capture, and the main loop -/

/-- A node handle as returned by the library: `delete_node` dispatches on
whether it is a render-setup `RenderLayer` instance. -/
inductive MayaNode where
  | dagNode (name : String)
  | renderLayerNode (name : String)
  deriving DecidableEq, Repr

/-- Embedding of `create_material_override` (lib.py lines 137-185): the
useBackground shader and its shading group, the `intersections` render layer
with the all-shapes collection (selector filter type 2 = shapes, pattern
`*`) and the nested collection excluding pfxToon shapes (pattern
`*;-pfxToonShape*`), the material override on the nested collection with the
shading group's `message` connected to its `attrValue`, and the switch to
the layer.  Returns `[shader, shading_group, layer]`. -/
def create_material_override : List Action × List MayaNode :=
  ([Action.shadingNode "useBackground" "intersections_background" true,
    Action.setsCmd "intersections_backgroundSG" true true true,
    Action.connectAttr "intersections_background.outColor"
      "intersections_backgroundSG.surfaceShader",
    Action.createRenderLayer "intersections",
    Action.createCollection "intersections" "shapes",
    Action.setFilterType "shapes" 2,
    Action.setPattern "shapes" "*",
    Action.createCollection "shapes" "except_pfx",
    Action.setFilterType "except_pfx" 2,
    Action.setPattern "except_pfx" "*;-pfxToonShape*",
    Action.createOverride "except_pfx" "material_override" "materialOverride",
    Action.connectAttr "intersections_backgroundSG.message"
      "material_override.attrValue",
    Action.switchToLayer "intersections"],
   [MayaNode.dagNode "intersections_background",
    MayaNode.dagNode "intersections_backgroundSG",
    MayaNode.renderLayerNode "intersections"])

/-- **C4.**  `create_material_override` creates a useBackground shader
connected to a shading group, a render layer holding a collection that
matches all shapes (filter type 2, pattern `*`) with a nested collection
matching all shapes except pfxToon shapes (pattern `*;-pfxToonShape*`),
attaches a material override on the nested collection whose `attrValue` is
connected from the shading group, switches the render setup to that layer,
and returns `[shader, shading_group, layer]`. -/
theorem C4_material_override_structure :
    create_material_override.2
      = [MayaNode.dagNode "intersections_background",
         MayaNode.dagNode "intersections_backgroundSG",
         MayaNode.renderLayerNode "intersections"]
    ∧ Action.shadingNode "useBackground" "intersections_background" true
        ∈ create_material_override.1
    ∧ Action.setsCmd "intersections_backgroundSG" true true true
        ∈ create_material_override.1
    ∧ Action.connectAttr "intersections_background.outColor"
        "intersections_backgroundSG.surfaceShader" ∈ create_material_override.1
    ∧ Action.createRenderLayer "intersections" ∈ create_material_override.1
    ∧ Action.createCollection "intersections" "shapes" ∈ create_material_override.1
    ∧ Action.setFilterType "shapes" 2 ∈ create_material_override.1
    ∧ Action.setPattern "shapes" "*" ∈ create_material_override.1
    ∧ Action.createCollection "shapes" "except_pfx" ∈ create_material_override.1
    ∧ Action.setFilterType "except_pfx" 2 ∈ create_material_override.1
    ∧ Action.setPattern "except_pfx" "*;-pfxToonShape*" ∈ create_material_override.1
    ∧ Action.createOverride "except_pfx" "material_override" "materialOverride"
        ∈ create_material_override.1
    ∧ Action.connectAttr "intersections_backgroundSG.message"
        "material_override.attrValue" ∈ create_material_override.1
    ∧ Action.switchToLayer "intersections" ∈ create_material_override.1 := by
  refine ⟨rfl, ?_, ?_, ?_, ?_, ?_, ?_, ?_, ?_, ?_, ?_, ?_, ?_, ?_⟩ <;>
    simp [create_material_override]

/-- Embedding of `delete_node` (lib.py lines 188-193): render layers are
deleted through `renderLayer.delete`, every other node through
`pymel.core.delete`. -/
def delete_node (node : MayaNode) : Action :=
  match node with
  | MayaNode.renderLayerNode name => Action.renderLayerDelete name
  | MayaNode.dagNode name => Action.pymelDelete name

/-- Python `or` fallback on strings: `None` and the empty string are falsy. -/
def resolveStr (x : Option String) (d : String) : String :=
  match x with
  | none => d
  | some s => if s = "" then d else s

/-- Python `or` fallback on frame numbers: `None` and `0` are falsy, so
`start_frame or playbackOptions(min=True, query=True)` replaces both by the
playback bound. -/
def resolveFrame (x : Option ℚ) (d : ℚ) : ℚ :=
  match x with
  | none => d
  | some v => if v = 0 then d else v

/-- `os.path.join` for the paths the library builds. -/
def pathJoin (dir f : String) : String := dir ++ "/" ++ f

/-- Embedding of `capture_frames` (lib.py lines 72-108).  `temp_directory`
stands for the hash-named directory under `tempfile.gettempdir()`; the
function creates it, clears the selection, runs the viewport capture
(format `image`, compression `png`, width 40, black background) into
`temp_directory/temp`, and returns the directory. -/
def capture_frames (camera : Option String) (start_frame end_frame : Option ℚ)
    (temp_directory : String) : String × List Action :=
  (temp_directory,
   [Action.makedirs temp_directory,
    Action.selectClear,
    Action.captureCall (resolveStr camera "persp") "image" "png" 40
      start_frame end_frame (pathJoin temp_directory "temp")])

/-- The loop of `get_coverage` over `os.listdir(capture_directory)`
(lib.py lines 239-247): for each listed file, pair the running frame counter
with the file's white coverage, incrementing the counter by one.  `none`
models the run aborting with the `ZeroDivisionError` a degenerate image
would raise inside the loop. -/
def coverageLoop (readPng : String → PNGData) (dir : String) :
    ℚ → List String → Option (List (ℚ × ℚ))
  | _, [] => some []
  | frame, f :: rest =>
      match get_white_coverage (readPng (pathJoin dir f)) with
      | Except.error _ => none
      | Except.ok c =>
          match coverageLoop readPng dir (frame + 1) rest with
          | none => none
          | some d => some ((frame, c) :: d)

/-- The host-controlled environment of one `get_coverage` run: the playback
range, the scene contents, the directory listing of the capture directory
(in `os.listdir` order), the decoded content of each captured file, the
hash-named temp directory, and the names Maya assigns to the created
pfxToon shape and its parent transform. -/
structure GCEnv where
  playbackMin : ℚ
  playbackMax : ℚ
  scene : Scene
  capturedFiles : List String
  readPng : String → PNGData
  tempDir : String
  newPfxShape : String
  newPfxParent : String

/-- Embedding of `get_coverage` (lib.py lines 196-258): resolve camera and
frame range, create the pfx (on `pymel.core.ls(type="mesh")`), create the
render-layer override, capture the frames, read the coverage of every
listed file, then clean up: remove the capture directory recursively
ignoring errors, delete the three override nodes through `delete_node`, and
delete the pfx transform when `delete_pfx` is set.  `none` models a run
aborted by an exception in the coverage loop (in which case the cleanup
code never runs and the function does not return). -/
def get_coverage (env : GCEnv) (camera : Option String)
    (start_frame end_frame : Option ℚ) (delete_pfx : Bool) :
    Option (List (ℚ × ℚ) × List Action) :=
  let cam := resolveStr camera "persp"
  let s := resolveFrame start_frame env.playbackMin
  let e := resolveFrame end_frame env.playbackMax
  let pfxResult := apply_pfxtoon env.scene (some env.scene.meshShapes)
    env.newPfxShape env.newPfxParent
  let mo := create_material_override
  let cap := capture_frames (some cam) (some s) (some e) env.tempDir
  match coverageLoop env.readPng cap.1 s env.capturedFiles with
  | none => none
  | some data =>
      some (data,
        pfxResult.1 ++ mo.1 ++ cap.2
          ++ Action.rmtreeCall cap.1 true
          :: (mo.2.map delete_node
            ++ (if delete_pfx then [Action.pymelDelete pfxResult.2.1] else [])))

/-- When every listed file decodes to an image with at least one pixel, the
coverage loop succeeds and produces one `(frame, coverage)` pair per file:
the frames count up by one from the start value, and each coverage is the
`get_white_coverage` of the file at the same position. -/
theorem coverageLoop_spec (readPng : String → PNGData) (dir : String)
    (files : List String) :
    ∀ s : ℚ,
      (∀ f ∈ files,
        0 < (readPng (pathJoin dir f)).width * (readPng (pathJoin dir f)).height) →
      ∃ data, coverageLoop readPng dir s files = some data
        ∧ data.length = files.length
        ∧ ∀ i : Nat, i < files.length →
            ∃ (c : ℚ) (f : String), files[i]? = some f
              ∧ data[i]? = some (s + i, c)
              ∧ get_white_coverage (readPng (pathJoin dir f)) = Except.ok c := by
  induction files with
  | nil =>
      intro s _
      exact ⟨[], rfl, rfl, fun i hi => absurd hi (by simp)⟩
  | cons f rest ih =>
      intro s h
      have hf := h f (List.mem_cons_self f rest)
      have hok := get_white_coverage_eq (readPng (pathJoin dir f)) hf
      obtain ⟨d, hd, hdlen, hdidx⟩ :=
        ih (s + 1) (fun g hg => h g (List.mem_cons_of_mem f hg))
      refine ⟨(s, (totalValues (readPng (pathJoin dir f)) : ℚ)
          / (((readPng (pathJoin dir f)).width * (readPng (pathJoin dir f)).height
              * 4 * 255 : Nat) : ℚ)) :: d, ?_, ?_, ?_⟩
      · rw [coverageLoop, hok, hd]
      · simpa using hdlen
      · intro i hi
        match i with
        | 0 =>
            refine ⟨_, f, by simp, ?_, hok⟩
            simp
        | Nat.succ j =>
            have hj : j < rest.length := Nat.lt_of_succ_lt_succ hi
            obtain ⟨c, g, hg, hdg, hgc⟩ := hdidx j hj
            refine ⟨c, g, by simpa using hg, ?_, hgc⟩
            have harith : s + (j + 1 : Nat) = (s + 1) + (j : Nat) := by
              push_cast
              ring
            rw [List.getElem?_cons_succ, hdg, harith]

/-- When the coverage loop succeeds, `get_coverage` returns its data paired
with the full trace: pfx creation, override creation, capture, then the
cleanup block. -/
theorem get_coverage_eq (env : GCEnv) (camera : Option String)
    (start_frame end_frame : Option ℚ) (delete_pfx : Bool)
    (data : List (ℚ × ℚ))
    (hloop : coverageLoop env.readPng env.tempDir
        (resolveFrame start_frame env.playbackMin) env.capturedFiles
      = some data) :
    get_coverage env camera start_frame end_frame delete_pfx
      = some (data,
          (apply_pfxtoon env.scene (some env.scene.meshShapes)
              env.newPfxShape env.newPfxParent).1
            ++ create_material_override.1
            ++ (capture_frames (some (resolveStr camera "persp"))
                (some (resolveFrame start_frame env.playbackMin))
                (some (resolveFrame end_frame env.playbackMax)) env.tempDir).2
            ++ Action.rmtreeCall env.tempDir true
            :: (create_material_override.2.map delete_node
              ++ (if delete_pfx then
                  [Action.pymelDelete
                    (apply_pfxtoon env.scene (some env.scene.meshShapes)
                      env.newPfxShape env.newPfxParent).2.1]
                else []))) := by
  simp only [get_coverage, capture_frames]
  rw [hloop]

/-- **C3.**  When every captured file decodes to a non-degenerate image,
`get_coverage` returns one `[frame, coverage]` pair per captured file: the
frame numbers are the consecutive values `s, s+1, s+2, ...` from the
resolved start frame `s`, and each coverage entry is the
`get_white_coverage` result of the file at the same listing position. -/
theorem C3_frames_and_coverage (env : GCEnv) (camera : Option String)
    (start_frame end_frame : Option ℚ) (delete_pfx : Bool)
    (h : ∀ f ∈ env.capturedFiles,
      0 < (env.readPng (pathJoin env.tempDir f)).width
        * (env.readPng (pathJoin env.tempDir f)).height) :
    ∃ data tr,
      get_coverage env camera start_frame end_frame delete_pfx = some (data, tr)
      ∧ data.length = env.capturedFiles.length
      ∧ ∀ i : Nat, i < env.capturedFiles.length →
          ∃ (c : ℚ) (f : String), env.capturedFiles[i]? = some f
            ∧ data[i]? = some (resolveFrame start_frame env.playbackMin + i, c)
            ∧ get_white_coverage (env.readPng (pathJoin env.tempDir f))
                = Except.ok c := by
  obtain ⟨data, hloop, hlen, hidx⟩ := coverageLoop_spec env.readPng env.tempDir
    env.capturedFiles (resolveFrame start_frame env.playbackMin) h
  exact ⟨data, _,
    get_coverage_eq env camera start_frame end_frame delete_pfx data hloop,
    hlen, hidx⟩

/-- Witness for `C3_frames_and_coverage` on a two-file capture of red-pixel
images. -/
theorem C3_frames_and_coverage_witness :
    ∃ data tr,
      get_coverage ⟨1, 5, ⟨["meshA"], []⟩, ["temp.0001.png", "temp.0002.png"],
          (fun _ => redPixelImage), "/tmp/cap", "pfxToonShape1", "pfxToon1"⟩
          none none none true
        = some (data, tr)
      ∧ data.length = (["temp.0001.png", "temp.0002.png"] : List String).length
      ∧ ∀ i : Nat, i < (["temp.0001.png", "temp.0002.png"] : List String).length →
          ∃ (c : ℚ) (f : String),
            (["temp.0001.png", "temp.0002.png"] : List String)[i]? = some f
            ∧ data[i]? = some (resolveFrame none 1 + i, c)
            ∧ get_white_coverage ((fun (_ : String) => redPixelImage) f)
                = Except.ok c :=
  C3_frames_and_coverage ⟨1, 5, ⟨["meshA"], []⟩, ["temp.0001.png", "temp.0002.png"],
    (fun _ => redPixelImage), "/tmp/cap", "pfxToonShape1", "pfxToon1"⟩
    none none none true (by decide)

/-- **C7.**  On every run that returns, the temporary directory that
`capture_frames` created and returned for the captured PNG frames is removed
recursively with errors ignored: the trace holds its `makedirs` and a
matching `rmtree(..., ignore_errors=True)`. -/
theorem C7_temp_dir_cleanup (env : GCEnv) (camera : Option String)
    (start_frame end_frame : Option ℚ) (delete_pfx : Bool)
    (h : ∀ f ∈ env.capturedFiles,
      0 < (env.readPng (pathJoin env.tempDir f)).width
        * (env.readPng (pathJoin env.tempDir f)).height) :
    ∃ data tr,
      get_coverage env camera start_frame end_frame delete_pfx = some (data, tr)
      ∧ (capture_frames (some (resolveStr camera "persp"))
          (some (resolveFrame start_frame env.playbackMin))
          (some (resolveFrame end_frame env.playbackMax)) env.tempDir).1
        = env.tempDir
      ∧ Action.makedirs env.tempDir ∈ tr
      ∧ Action.rmtreeCall env.tempDir true ∈ tr := by
  obtain ⟨data, hloop, -, -⟩ := coverageLoop_spec env.readPng env.tempDir
    env.capturedFiles (resolveFrame start_frame env.playbackMin) h
  refine ⟨data, _,
    get_coverage_eq env camera start_frame end_frame delete_pfx data hloop,
    rfl, ?_, ?_⟩
  · simp [capture_frames, List.mem_append, List.mem_cons]
  · simp [List.mem_append, List.mem_cons]

/-- Witness for `C7_temp_dir_cleanup` on a one-file capture. -/
theorem C7_temp_dir_cleanup_witness :
    ∃ data tr,
      get_coverage ⟨2, 3, ⟨[], []⟩, ["temp.0001.png"], (fun _ => redPixelImage),
          "/tmp/capdir", "pfxToonShape2", "pfxToon2"⟩ none none none false
        = some (data, tr)
      ∧ (capture_frames (some (resolveStr none "persp"))
          (some (resolveFrame none 2)) (some (resolveFrame none 3)) "/tmp/capdir").1
        = "/tmp/capdir"
      ∧ Action.makedirs "/tmp/capdir" ∈ tr
      ∧ Action.rmtreeCall "/tmp/capdir" true ∈ tr :=
  C7_temp_dir_cleanup ⟨2, 3, ⟨[], []⟩, ["temp.0001.png"], (fun _ => redPixelImage),
    "/tmp/capdir", "pfxToonShape2", "pfxToon2"⟩ none none none false (by decide)

/-- No call of the connection loop is a `pymel.core.delete`. -/
theorem pymelDelete_not_mem_connectMeshes (pfx nm : String) :
    ∀ (i : Nat) (ms : List String),
      Action.pymelDelete nm ∉ connectMeshes pfx i ms := by
  intro i ms
  induction ms generalizing i with
  | nil => simp [connectMeshes]
  | cons m rest ih =>
      intro hmem
      rw [connectMeshes] at hmem
      simp only [List.mem_cons] at hmem
      rcases hmem with hc | hc | hc
      · exact Action.noConfusion hc
      · exact Action.noConfusion hc
      · exact ih (i + 1) hc

/-- The only `pymel.core.delete` calls `apply_pfxtoon` emits are the
deletions of the parent transforms of previously tagged pfxToon nodes. -/
theorem pymelDelete_mem_apply_pfxtoon (scene : Scene)
    (meshes : Option (List String)) (newShape newParent nm : String)
    (hmem : Action.pymelDelete nm
      ∈ (apply_pfxtoon scene meshes newShape newParent).1) :
    ∃ p ∈ scene.pfxToons, p.tagged = true ∧ p.parent = nm := by
  have htr : (apply_pfxtoon scene meshes newShape newParent).1
      = ((scene.pfxToons.filter (fun p => p.tagged)).map
          (fun p => Action.pymelDelete p.parent))
        ++ Action.createNode "pfxToon" newShape newParent
        :: (preset.map (fun pv => Action.setAttr newShape pv.1 pv.2)
          ++ Action.addAttr "intersections_tool"
          :: connectMeshes newShape 0 (resolveMeshes scene meshes)) := rfl
  rw [htr] at hmem
  simp only [List.mem_append, List.mem_cons, List.mem_map,
    List.mem_filter] at hmem
  rcases hmem with ⟨p, ⟨hp, hpt⟩, hpe⟩ | hc | ⟨pv, -, hpe⟩ | hc | hc
  · exact ⟨p, hp, hpt, (Action.pymelDelete.injEq _ _).mp hpe⟩
  · exact Action.noConfusion hc
  · exact Action.noConfusion hpe
  · exact Action.noConfusion hc
  · exact absurd hc (pymelDelete_not_mem_connectMeshes newShape nm 0 _)

/-- **C6.**  On every run that returns, each of the three nodes returned by
`create_material_override` (shader, shading group, render layer) is deleted
through `delete_node`, and the pfx parent transform is `pymel.core.delete`d
if and only if `delete_pfx` is true.  The freshness hypotheses say the name
Maya assigned to the new pfx transform is not already the parent of a scene
pfxToon nor one of the two fixed shader-node names. -/
theorem C6_cleanup_deletes (env : GCEnv) (camera : Option String)
    (start_frame end_frame : Option ℚ) (delete_pfx : Bool)
    (h : ∀ f ∈ env.capturedFiles,
      0 < (env.readPng (pathJoin env.tempDir f)).width
        * (env.readPng (pathJoin env.tempDir f)).height)
    (hp1 : ∀ p ∈ env.scene.pfxToons, p.parent ≠ env.newPfxParent)
    (hp2 : env.newPfxParent ≠ "intersections_background")
    (hp3 : env.newPfxParent ≠ "intersections_backgroundSG") :
    ∃ data tr,
      get_coverage env camera start_frame end_frame delete_pfx = some (data, tr)
      ∧ (∀ n ∈ create_material_override.2, delete_node n ∈ tr)
      ∧ (Action.pymelDelete env.newPfxParent ∈ tr ↔ delete_pfx = true) := by
  obtain ⟨data, hloop, -, -⟩ := coverageLoop_spec env.readPng env.tempDir
    env.capturedFiles (resolveFrame start_frame env.playbackMin) h
  refine ⟨data, _,
    get_coverage_eq env camera start_frame end_frame delete_pfx data hloop,
    ?_, ?_⟩
  · intro n hn
    apply List.mem_append_right
    apply List.mem_cons_of_mem
    exact List.mem_append_left _ (List.mem_map_of_mem _ hn)
  · constructor
    · intro hmem
      rcases List.mem_append.mp hmem with hmem1 | hmem2
      · rcases List.mem_append.mp hmem1 with hmem3 | hmem4
        · rcases List.mem_append.mp hmem3 with hA | hmo
          · obtain ⟨p, hp, -, hpe⟩ :=
              pymelDelete_mem_apply_pfxtoon _ _ _ _ _ hA
            exact absurd hpe (hp1 p hp)
          · exact absurd hmo (by simp [create_material_override])
        · exact absurd hmem4 (by simp [capture_frames])
      · rcases List.mem_cons.mp hmem2 with hre | hmem5
        · exact Action.noConfusion hre
        · rcases List.mem_append.mp hmem5 with hD | hite
          · simp only [create_material_override, delete_node, List.map_cons,
              List.map_nil, List.mem_cons, List.not_mem_nil, or_false] at hD
            rcases hD with h1 | h2 | h3
            · exact absurd ((Action.pymelDelete.injEq _ _).mp h1) hp2
            · exact absurd ((Action.pymelDelete.injEq _ _).mp h2) hp3
            · exact Action.noConfusion h3
          · cases delete_pfx with
            | true => rfl
            | false => simp at hite
    · intro hdp
      subst hdp
      apply List.mem_append_right
      apply List.mem_cons_of_mem
      apply List.mem_append_right
      simp [apply_pfxtoon]

/-- Witness for `C6_cleanup_deletes` on a one-file run with `delete_pfx`
set. -/
theorem C6_cleanup_deletes_witness :
    ∃ data tr,
      get_coverage ⟨0, 10, ⟨["m1"], []⟩, ["temp.0001.png"],
          (fun _ => redPixelImage), "/tmp/c6", "pfxS", "pfxT"⟩ none none none true
        = some (data, tr)
      ∧ (∀ n ∈ create_material_override.2, delete_node n ∈ tr)
      ∧ (Action.pymelDelete "pfxT" ∈ tr ↔ true = true) :=
  C6_cleanup_deletes ⟨0, 10, ⟨["m1"], []⟩, ["temp.0001.png"],
    (fun _ => redPixelImage), "/tmp/c6", "pfxS", "pfxT"⟩ none none none true
    (by decide) (by decide) (by decide) (by decide)

end IntersectionsTool
